import Mathlib

/-!
Shallow embedding of `scrape-fsworld.py`: a batch scraper that fetches two
series landing pages, extracts per-event result tables into a typed model,
and writes per-event and per-series CSV summaries.

Modelling conventions:
* HTML documents (BeautifulSoup trees) become a mutual inductive `Node` /
  `NodeList` (text nodes and element tags with attributes and children).
* Python exceptions become `Except ScrapeErr`; `assert` failures are
  `ScrapeErr.assertionError`, dictionary misses `keyError`, etc.
* Python `float` values are modelled as exact decimals (`Dec`): an integer
  mantissa together with a power-of-ten denominator, kept canonical, since
  the program only ever parses and stores these values.
* The network is a finite map from URL to parsed document; the filesystem is
  an association list from path to structured file content; side effects
  (fetches, printed diagnostics) are recorded in a trace.
-/

namespace FSWorld

/-! ## Exact decimal numbers (the values of CPython `float(...)` on the
decimal strings this program parses) -/

/-- An exact decimal number `num / 10 ^ shift`.  Canonical when `shift = 0`
or `num` is not divisible by `10` (see `Dec.canon`). -/
structure Dec where
  num : Int
  shift : Nat
deriving DecidableEq, Repr

/-- Remove common factors of ten so that equal decimal values get equal
representations (e.g. "3.50" and "3.5" both canonicalise to 35/10^1). -/
def Dec.canon : Int → Nat → Dec
  | n, 0 => ⟨n, 0⟩
  | n, Nat.succ k => if n % 10 = 0 then Dec.canon (n / 10) k else ⟨n, Nat.succ k⟩

/-! ## Python-style string helpers (over `List Char`) -/

/-- `stripPre p l`: the rest of `l` after its leading copy of `p`, when `p`
leads `l`. -/
def stripPre : List Char → List Char → Option (List Char)
  | [], l => some l
  | _ :: _, [] => none
  | c :: cs, d :: ds => if c = d then stripPre cs ds else none

/-- Split a list at the first occurrence of (non-empty) `sep`:
`some (before, after)` with the first occurrence removed, `none` when `sep`
does not occur.  This is the core of Python `str.split(sep, 1)` and of
substring containment (`sep in s`). -/
def splitOnce (sep : List Char) : List Char → Option (List Char × List Char)
  | [] =>
    match stripPre sep [] with
    | some rest => some ([], rest)
    | none => none
  | c :: l =>
    match stripPre sep (c :: l) with
    | some rest => some ([], rest)
    | none =>
      match splitOnce sep l with
      | some (a, b) => some (c :: a, b)
      | none => none

/-- Python `needle in hay` (substring containment). -/
def strHasSub (needle hay : String) : Bool := (splitOnce needle.data hay.data).isSome

/-- Python `s.split(sep, 1)`: either the whole string (no occurrence) or the
two pieces around the first occurrence of `sep`. -/
def pySplit1 (s sep : String) : String × Option String :=
  match splitOnce sep.data s.data with
  | none => (s, none)
  | some (a, b) => (String.mk a, some (String.mk b))

/-- Python `s.rstrip(".")`: remove every trailing `'.'`. -/
def pyRstripDot (s : String) : String :=
  String.mk ((s.data.reverse.dropWhile (fun c => c = '.')).reverse)

/-- ASCII lower-casing of one character (the fragment of `str.lower()` this
program relies on). -/
def charLower (c : Char) : Char :=
  if 'A' ≤ c ∧ c ≤ 'Z' then Char.ofNat (c.toNat + 32) else c

/-- Python `s.lower()` restricted to ASCII letters. -/
def pyLower (s : String) : String := String.mk (s.data.map charLower)

def isWsChar (c : Char) : Bool := c = ' ' || c = '\t' || c = '\n'

def pySplitWsAux : List Char → List Char → List String
  | acc, [] => match acc with | [] => [] | _ => [String.mk acc.reverse]
  | acc, c :: rest =>
    if isWsChar c then
      match acc with
      | [] => pySplitWsAux [] rest
      | _ => String.mk acc.reverse :: pySplitWsAux [] rest
    else pySplitWsAux (c :: acc) rest

/-- Python `s.split()` (split on runs of whitespace), used for the
space-separated HTML `class` attribute. -/
def pySplitWs (s : String) : List String := pySplitWsAux [] s.data

/-! ## Errors (Python exceptions that abort the run) -/

/-- The exceptions the scraper can die with. -/
inductive ScrapeErr where
  /-- a failed `assert` -/
  | assertionError
  /-- missing dictionary key / missing HTML attribute -/
  | keyError (key : String)
  /-- bad value, e.g. unparsable number or unknown car kind -/
  | valueError (msg : String)
  /-- use of a never-assigned variable (`event_kind` without any match) -/
  | nameError
  /-- attribute access on the wrong kind of object -/
  | attributeError
  /-- the HTTP request failed -/
  | transportError
deriving DecidableEq, Repr

/-! ## Python numeric parsing -/

def isAsciiDigit (c : Char) : Bool := '0' ≤ c && c ≤ '9'

def natOfDigits (l : List Char) : Nat :=
  l.foldl (fun a c => a * 10 + (c.toNat - 48)) 0

def isWs (c : Char) : Bool := c = ' ' || c = '\t' || c = '\n'

def trimWs (l : List Char) : List Char :=
  ((l.dropWhile isWs).reverse.dropWhile isWs).reverse

/-- Sign handling shared by `int()` and `float()`: strip one leading `+`/`-`. -/
def splitSign : List Char → Bool × List Char
  | '+' :: rest => (false, rest)
  | '-' :: rest => (true, rest)
  | l => (false, l)

def applySign (neg : Bool) (n : Nat) : Int := if neg then -(n : Int) else (n : Int)

/-- Python `int(s)` on the decimal strings this scraper feeds it: optional
surrounding whitespace, optional sign, one or more ASCII digits. -/
def parsePyInt (s : String) : Except ScrapeErr Int :=
  let cs := trimWs s.data
  let (neg, ds) := splitSign cs
  if ds ≠ [] ∧ ds.all isAsciiDigit then
    .ok (applySign neg (natOfDigits ds))
  else
    .error (.valueError ("invalid literal for int: " ++ s))

/-- Build the decimal value of mantissa digits `ip.fp` with exponent `e`:
the value `±(ip ++ fp) * 10 ^ (e - |fp|)`, canonicalised. -/
def decOfParts (neg : Bool) (ip fp : List Char) (e : Int) : Dec :=
  let m : Int := applySign neg (natOfDigits (ip ++ fp))
  let fl : Int := (fp.length : Int)
  if fl ≤ e then Dec.canon (m * (10 : Int) ^ (e - fl).toNat) 0
  else Dec.canon m (fl - e).toNat

/-- Python `float(s)` on finite decimal literals: optional whitespace and
sign, `digits[.digits]` or `.digits`, optional exponent part.  (The special
forms `inf`/`nan` never occur in this program's inputs and are modelled as
parse errors.) -/
def parsePyFloat (s : String) : Except ScrapeErr Dec :=
  let cs := trimWs s.data
  let (neg, rest) := splitSign cs
  let (mant, expPart) :=
    match splitOnce ['e'] rest with
    | some (a, b) => (a, some b)
    | none =>
      match splitOnce ['E'] rest with
      | some (a, b) => (a, some b)
      | none => (rest, none)
  let (ip, fp) :=
    match splitOnce ['.'] mant with
    | some (a, b) => (a, b)
    | none => (mant, [])
  let mantOk := (ip ≠ [] ∨ fp ≠ []) ∧ ip.all isAsciiDigit ∧ fp.all isAsciiDigit
  let expVal : Except ScrapeErr Int :=
    match expPart with
    | none => .ok 0
    | some ec =>
      let (eneg, eds) := splitSign ec
      if eds ≠ [] ∧ eds.all isAsciiDigit then .ok (applySign eneg (natOfDigits eds))
      else .error (.valueError ("could not convert string to float: " ++ s))
  if mantOk then
    match expVal with
    | .ok e => .ok (decOfParts neg ip fp e)
    | .error err => .error err
  else
    .error (.valueError ("could not convert string to float: " ++ s))

/-! ## The document tree (BeautifulSoup's parsed HTML) -/

mutual
/-- A parsed HTML node: a text node (`NavigableString`) or an element tag
with its attributes and children. -/
inductive Node where
  | text (s : String)
  | tag (nm : String) (attrs : List (String × String)) (children : NodeList)
/-- The children of a tag, as a genuinely mutual list so recursion over the
tree is structural. -/
inductive NodeList where
  | nil
  | cons (n : Node) (rest : NodeList)
end

/-- Build a `NodeList` from an ordinary list. -/
def nl : List Node → NodeList
  | [] => .nil
  | n :: rest => .cons n (nl rest)

def NodeList.toList : NodeList → List Node
  | .nil => []
  | .cons n rest => n :: NodeList.toList rest

/-- Attribute lookup on a tag (`tag["name"]` / `tag.has_attr`): the first
binding of the attribute, `none` on a text node or an absent attribute. -/
def attrOf (n : Node) (key : String) : Option String :=
  match n with
  | .text _ => none
  | .tag _ attrs _ => attrs.lookup key

mutual
/-- BeautifulSoup `.text` / `get_text()`: concatenation of every string in
the subtree, in document order. -/
def nodeText : Node → String
  | .text s => s
  | .tag _ _ cs => nodesText cs
def nodesText : NodeList → String
  | .nil => ""
  | .cons n rest => nodeText n ++ nodesText rest
end

mutual
/-- `col.find(lambda tag: tag.has_attr("title"))`: the first descendant tag
(pre-order, the node itself excluded) carrying a `title` attribute. -/
def findTitled : Node → Option Node
  | .text _ => none
  | .tag _ _ cs => findTitledList cs
def findTitledList : NodeList → Option Node
  | .nil => none
  | .cons n rest =>
    match n with
    | .text _ => findTitledList rest
    | .tag nm attrs cs =>
      if (attrs.lookup "title").isSome then some (.tag nm attrs cs)
      else match findTitledList cs with
        | some t => some t
        | none => findTitledList rest
end

mutual
/-- BeautifulSoup `find_all(name)`: every descendant tag with the given
element name, in document (pre-)order; the root itself is excluded. -/
def allNamed (nm : String) : Node → List Node
  | .text _ => []
  | .tag _ _ cs => allNamedList nm cs
def allNamedList (nm : String) : NodeList → List Node
  | .nil => []
  | .cons n rest =>
    match n with
    | .text _ => allNamedList nm rest
    | .tag nm' attrs cs =>
      (if nm' = nm then [Node.tag nm' attrs cs] else []) ++
        allNamedList nm cs ++ allNamedList nm rest
end

mutual
/-- Every descendant of the root paired with the list of its following
siblings (document order).  This supports `find(id=...)` followed by
`find_next_sibling(...)` and `next_sibling`. -/
def descendantsWithFollow : Node → List (Node × List Node)
  | .text _ => []
  | .tag _ _ cs => descendantsWithFollowList cs
def descendantsWithFollowList : NodeList → List (Node × List Node)
  | .nil => []
  | .cons n rest =>
    (n, rest.toList) :: (descendantsWithFollow n ++ descendantsWithFollowList rest)
end

/-- First entry of `descendantsWithFollow` whose node is a tag with
attribute `key = val` (BeautifulSoup `soup.find(id=val)`), together with its
following siblings. -/
def findByAttrWithFollow (root : Node) (key val : String) : Option (Node × List Node) :=
  (descendantsWithFollow root).find?
    (fun p => match attrOf p.1 key with | some v => v = val | none => false)

/-- Does the tag's space-separated `class` attribute contain `cls`
(BeautifulSoup's `class_` matching)? -/
def hasClass (n : Node) (cls : String) : Bool :=
  match attrOf n "class" with
  | some v => (pySplitWs v).contains cls
  | none => false

/-- Is this node a tag with the given element name? -/
def isTagNamed (n : Node) (nm : String) : Bool :=
  match n with
  | .tag nm' _ _ => nm' = nm
  | .text _ => false

/-! ## The data model -/

inductive CarKind where
  | ELECTRIC
  | COMBUSTION
  | OTHER
deriving DecidableEq, Repr

inductive EventKind where
  | ELECTRIC
  | COMBUSTION
  | MIXED
deriving DecidableEq, Repr

/-- Python `Enum.name`, used when serialising. -/
def carKindName : CarKind → String
  | .ELECTRIC => "ELECTRIC"
  | .COMBUSTION => "COMBUSTION"
  | .OTHER => "OTHER"

/-- Python `Enum.name`, used when serialising. -/
def eventKindName : EventKind → String
  | .ELECTRIC => "ELECTRIC"
  | .COMBUSTION => "COMBUSTION"
  | .MIXED => "MIXED"

structure PlacementData where
  place : Int
  score : Dec
deriving DecidableEq, Repr

/-- `DisciplineData = Union[PlacementData, None]` is `Option PlacementData`. -/

structure TeamData where
  name : String
  country : String
  kind : CarKind
  place : Int
  cost : Option PlacementData
  bp : Option PlacementData
  ed : Option PlacementData
  acc : Option PlacementData
  sp : Option PlacementData
  autox : Option PlacementData
  endu : Option PlacementData
  eff : Option PlacementData
  pen : Dec
  total : Dec
deriving DecidableEq, Repr

structure EventData where
  id : Int
  kind : EventKind
  name : String
  results : List TeamData
deriving DecidableEq, Repr

/-! ## Extraction (DocumentExtractor) -/

/-- `tag[key]` with Python's `KeyError` on a missing attribute. -/
def getAttr (n : Node) (key : String) : Except ScrapeErr String :=
  match attrOf n key with
  | some v => .ok v
  | none => .error (.keyError key)

/-- `extract_discipline_data(col)`: strip trailing dots from the cell text;
`"-"` means no placement (`none`); otherwise the stripped text is the
integer place and the `title` attribute of the first descendant tag that has
one is the real score.  A missing descendant fails the `assert`. -/
def extract_discipline_data (col : Node) : Except ScrapeErr (Option PlacementData) :=
  let text := pyRstripDot (nodeText col)
  if text = "-" then .ok none
  else
    match parsePyInt (pyRstripDot (nodeText col)) with
    | .error e => .error e
    | .ok place =>
      match findTitled col with
      | none => .error .assertionError
      | some tooltip =>
        match attrOf tooltip "title" with
        | none => .error (.keyError "title")
        | some title =>
          match parsePyFloat title with
          | .error e => .error e
          | .ok score => .ok (some ⟨place, score⟩)

/-- `country, name = cols[0]["title"].split(" | ", 1)`: Python's 2-element
unpacking of a maxsplit-1 split; no occurrence of the delimiter leaves a
single element and raises `ValueError`. -/
def splitCountryName (title : String) : Except ScrapeErr (String × String) :=
  match pySplit1 title " | " with
  | (a, some b) => .ok (a, b)
  | (_, none) => .error (.valueError "not enough values to unpack (expected 2, got 1)")

/-- The `if kind == "electric" ... else raise ValueError` chain on the total
cell's `title` attribute. -/
def decodeCarKind (s : String) : Except ScrapeErr CarKind :=
  if s = "electric" then .ok .ELECTRIC
  else if s = "combustion" then .ok .COMBUSTION
  else if s = "other" then .ok .OTHER
  else .error (.valueError ("Unknown car kind: " ++ s))

/-- The `if "mixed event" in event_info ...` chain: lower-case the text and
test the three substrings in order; no match assigns nothing (`none`). -/
def classifyEventKind (info : String) : Option EventKind :=
  let t := pyLower info
  if strHasSub "mixed event" t then some .MIXED
  else if strHasSub "pure electric" t then some .ELECTRIC
  else if strHasSub "pure combustion" t then some .COMBUSTION
  else none

/-- What the later read of `event_kind` sees: the fresh classification when
one was assigned, the previous loop iteration's value when not, and a
`NameError` when the variable was never assigned at all. -/
def resolveEventKind : Option EventKind → Option EventKind → Except ScrapeErr EventKind
  | some k, _ => .ok k
  | none, some k => .ok k
  | none, none => .error .nameError

/-- One `<tr>` of the results table: header rows (containing a `<th>`) are
skipped; a data row must have exactly 12 `<td>` columns, decoded
positionally. -/
def extractRow (row : Node) : Except ScrapeErr (Option TeamData) :=
  if ¬ (allNamed "th" row).isEmpty then .ok none
  else
    match allNamed "td" row with
    | [c0, c1, c2, c3, c4, c5, c6, c7, c8, c9, c10, c11] => do
      let t0 ← getAttr c0 "title"
      let (country, name) ← splitCountryName t0
      let place ← parsePyInt (pyRstripDot (nodeText c1))
      let cost ← extract_discipline_data c2
      let bp ← extract_discipline_data c3
      let ed ← extract_discipline_data c4
      let acc ← extract_discipline_data c5
      let sp ← extract_discipline_data c6
      let autox ← extract_discipline_data c7
      let endu ← extract_discipline_data c8
      let eff ← extract_discipline_data c9
      let pen ← parsePyFloat (nodeText c10)
      let total ← parsePyFloat (nodeText c11)
      let kindStr ← getAttr c11 "title"
      let kind ← decodeCarKind kindStr
      return some { name, country, kind, place, cost, bp, ed, acc, sp, autox, endu, eff,
                    pen, total }
    | _ => throw .assertionError

/-- The row loop: first failure aborts, successful rows accumulate in
order. -/
def extractRows : List Node → Except ScrapeErr (List TeamData)
  | [] => .ok []
  | r :: rest => do
    let t? ← extractRow r
    let ts ← extractRows rest
    return (match t? with | none => ts | some t => t :: ts)

/-- Event-list extraction: the `id="WorldEvents"` select's `<option>`
values, as integers. -/
def extractEventIds (soup : Node) : Except ScrapeErr (List Int) :=
  match findByAttrWithFollow soup "id" "WorldEvents" with
  | none => .error .assertionError
  | some (sel, _) =>
    (allNamed "option" sel).mapM (fun o => do parsePyInt (← getAttr o "value"))

/-- All `<h4>` descendants paired with their `next_sibling`. -/
def h4sWithNext (soup : Node) : List (Node × Option Node) :=
  ((descendantsWithFollow soup).filter (fun p => isTagNamed p.1 "h4")).map
    (fun p => (p.1, p.2.head?))

/-- The unique `<h4>` heading's text (the event name) and the raw text of
its next sibling (the kind description); any other shape is fatal. -/
def extractEventHeader (soup : Node) : Except ScrapeErr (String × String) :=
  match h4sWithNext soup with
  | [(h4, sib)] =>
    match sib with
    | none => .error .assertionError
    | some (.text s) => .ok (nodeText h4, s)
    | some (.tag _ _ _) => .error .attributeError
  | _ => .error .assertionError

/-- The table following the `id="results"` anchor: its first following
sibling that is a `<table class="wrl_table">`. -/
def findResultsTable (soup : Node) : Except ScrapeErr Node :=
  match findByAttrWithFollow soup "id" "results" with
  | none => .error .assertionError
  | some (_, follow) =>
    match follow.find? (fun n => isTagNamed n "table" && hasClass n "wrl_table") with
    | some t => .ok t
    | none => .error .assertionError

/-- Event-detail extraction for one event id.  `prevKind` is the value the
`event_kind` variable still holds from the previous loop iteration (Python
leaves it untouched when no substring matches). -/
def extractEvent (soup : Node) (event_id : Int) (prevKind : Option EventKind) :
    Except ScrapeErr EventData := do
  let (event_name, info) ← extractEventHeader soup
  let kind ← resolveEventKind (classifyEventKind info) prevKind
  let table ← findResultsTable soup
  let results ← extractRows (allNamed "tr" table)
  return { id := event_id, kind, name := event_name, results }

/-! ## The paced fetcher's timing (`Scraper.get`)

Wall-clock instants are rationals.  `getStep s now` describes one call of
`Scraper.get` made at time `now`: the sleep it performs, the instant the
request is issued (`now` plus the sleep, idealising `time.sleep` as exact
and the surrounding bookkeeping as instantaneous), and the scraper state
afterwards.  The network call itself happens from `start` on; the document
it returns is not modelled here (the orchestrator below gets pages from a
`World`). -/

structure Scraper where
  min_pause : ℚ
  last_request : ℚ
deriving DecidableEq, Repr

/-- `Scraper()`: the default minimum pause is 1 second and the last-request
timestamp starts at `0.0`. -/
def Scraper.init : Scraper := { min_pause := 1, last_request := 0 }

structure GetStep where
  /-- how long this call sleeps before issuing the request -/
  sleep : ℚ
  /-- the instant the request is issued (and `last_request` is set to) -/
  start : ℚ
  /-- the scraper state after the call -/
  next : Scraper
deriving DecidableEq, Repr

/-- One call of `Scraper.get` at instant `now`. -/
def Scraper.getStep (s : Scraper) (now : ℚ) : GetStep :=
  let diff := now - s.last_request
  let sl := if diff < s.min_pause then s.min_pause - diff else 0
  { sleep := sl, start := now + sl, next := { s with last_request := now + sl } }

/-! ## The orchestrator (the module-level loop)

The network is a finite map from URL to parsed page; fetching a URL outside
it models a transport failure.  The filesystem is an association list from
path to structured content (`open(..., "w")` replaces the entry).  Printed
diagnostics and fetches are recorded in a trace. -/

/-- The pages the two series' URLs and event URLs resolve to. -/
structure World where
  pages : List (String × Node)

def fetchPage (w : World) (url : String) : Option Node := w.pages.lookup url

/-- Observable side effects other than file writes. -/
inductive Effect where
  | fetch (url : String)
  | note (msg : String)
deriving DecidableEq, Repr

/-- What a written file holds, at the structured level the program
serialises (CSV text for floats is not modelled; the rows are). -/
inductive FileContent where
  /-- `data/events/<id>.csv`: one row per team -/
  | eventCsv (rows : List TeamData)
  /-- `data/<series>.csv`: one row per accumulated event
  (id, kind name, name, team count) -/
  | summaryCsv (rows : List (Int × String × String × Nat))
deriving DecidableEq, Repr

def lookupEv : List (Int × EventData) → Int → Option EventData
  | [], _ => none
  | (k, v) :: rest, i => if i = k then some v else lookupEv rest i

def getFile : List (String × FileContent) → String → Option FileContent
  | [], _ => none
  | (p, c) :: rest, q => if q = p then some c else getFile rest q

/-- `open(path, "w")` + write: replace whatever the path held. -/
def setFile (fs : List (String × FileContent)) (path : String) (c : FileContent) :
    List (String × FileContent) :=
  fs.filter (fun p => p.1 != path) ++ [(path, c)]

/-- The mutable state of the run: the accumulated `events` dict (insertion
ordered, as Python dicts are), the filesystem, the trace, and the current
binding of the loop variable `event_kind` (`none` before any assignment). -/
structure RunState where
  events : List (Int × EventData)
  fs : List (String × FileContent)
  trace : List Effect
  lastKind : Option EventKind
deriving DecidableEq, Repr

def initState : RunState := { events := [], fs := [], trace := [], lastKind := none }

/-- A step of the run either completes or aborts with the Python exception
and the state at the moment of the crash. -/
inductive StepResult where
  | ok (st : RunState)
  | fail (e : ScrapeErr) (st : RunState)
deriving DecidableEq, Repr

def eventPath (event_id : Int) : String := "data/events/" ++ toString event_id ++ ".csv"

def summaryPath (wrl_kind : String) : String := "data/" ++ wrl_kind ++ ".csv"

/-- The rows of a series summary file: one per entry of the accumulated
`events` dict, in insertion order. -/
def summaryRows (events : List (Int × EventData)) : List (Int × String × String × Nat) :=
  events.map (fun p => (p.2.id, eventKindName p.2.kind, p.2.name, p.2.results.length))

/-- The summary write at the end of a series: overwrite `data/<series>.csv`
with one row per event of the full accumulated dict. -/
def writeSummary (wrl_kind : String) (st : RunState) : RunState :=
  { st with fs := setFile st.fs (summaryPath wrl_kind) (.summaryCsv (summaryRows st.events)) }

/-- The body of `for event_id in event_ids`: skip (with a note) when the id
is already accumulated; otherwise fetch the detail page, extract it, insert
into the dict and write the per-event file.  Any extraction failure aborts
before the insert and the write. -/
def processEventId (world : World) (wrl_kind url : String) (st : RunState)
    (event_id : Int) : StepResult :=
  if (lookupEv st.events event_id).isSome then
    .ok { st with trace := st.trace ++
      [.note ("Skipping " ++ wrl_kind ++ "/" ++ toString event_id ++
        " (already scraped, probably a mixed event)")] }
  else
    match fetchPage world (url ++ "/" ++ toString event_id) with
    | none =>
      .fail .transportError
        { st with trace := st.trace ++ [.fetch (url ++ "/" ++ toString event_id)] }
    | some soup =>
      match extractEvent soup event_id st.lastKind with
      | .error e =>
        .fail e { st with trace := st.trace ++ [.fetch (url ++ "/" ++ toString event_id)] }
      | .ok ev =>
        .ok { st with
          events := st.events ++ [(event_id, ev)],
          fs := setFile st.fs (eventPath event_id) (.eventCsv ev.results),
          lastKind := some ev.kind,
          trace := st.trace ++ [.fetch (url ++ "/" ++ toString event_id)] ++
            [.note (wrl_kind ++ "/" ++ toString event_id ++ ": " ++ ev.name)] }

/-- The event loop of one series. -/
def processEventIds (world : World) (wrl_kind url : String) :
    RunState → List Int → StepResult
  | st, [] => .ok st
  | st, eid :: rest =>
    match processEventId world wrl_kind url st eid with
    | .fail e st' => .fail e st'
    | .ok st' => processEventIds world wrl_kind url st' rest

/-- One iteration of `for wrl_kind, url in DATASETS.items()`: fetch the
landing page, read the event ids, run the event loop, then (over)write this
series' summary file from the full accumulated dict. -/
def runSeries (world : World) (wrl_kind url : String) (st : RunState) : StepResult :=
  match fetchPage world url with
  | none => .fail .transportError { st with trace := st.trace ++ [.fetch url] }
  | some soup =>
    match extractEventIds soup with
    | .error e => .fail e { st with trace := st.trace ++ [Effect.fetch url] }
    | .ok ids =>
      match processEventIds world wrl_kind url
          { st with trace := st.trace ++ [Effect.fetch url] } ids with
      | .fail e st' => .fail e st'
      | .ok st' => .ok (writeSummary wrl_kind st')

/-- The whole run over the configured series list. -/
def runSeriesList (world : World) : RunState → List (String × String) → StepResult
  | st, [] => .ok st
  | st, (wrl_kind, url) :: rest =>
    match runSeries world wrl_kind url st with
    | .fail e st' => .fail e st'
    | .ok st' => runSeriesList world st' rest

/-- `DATASETS` of the script. -/
def DATASETS : List (String × String) :=
  [("FSE", "https://fs-world.org/E"), ("FSC", "https://fs-world.org/C")]

def runAll (world : World) : StepResult := runSeriesList world initState DATASETS

/-! # Verification -/

/-! ## Splitting lemmas -/

theorem stripPre_eq_some {p : List Char} :
    ∀ {l r : List Char}, stripPre p l = some r → l = p ++ r := by
  induction p with
  | nil => intro l r h; simp [stripPre] at h; simp [h]
  | cons c cs ih =>
    intro l r h
    cases l with
    | nil => simp [stripPre] at h
    | cons d ds =>
      simp only [stripPre] at h
      by_cases hc : c = d
      · rw [if_pos hc] at h
        subst hc
        simp [ih h]
      · rw [if_neg hc] at h
        cases h

theorem stripPre_append (p r : List Char) : stripPre p (p ++ r) = some r := by
  induction p with
  | nil => simp [stripPre]
  | cons c cs ih => simp [stripPre, ih]

theorem stripPre_append_none {p x : List Char} (h : stripPre p x = none)
    (hlen : p.length ≤ x.length) (z : List Char) : stripPre p (x ++ z) = none := by
  induction p generalizing x with
  | nil => simp [stripPre] at h
  | cons c cs ih =>
    cases x with
    | nil => simp at hlen
    | cons d ds =>
      simp only [stripPre] at h ⊢
      by_cases hc : c = d
      · rw [if_pos hc] at h ⊢
        exact ih h (by simpa using hlen)
      · rw [if_neg hc] at h ⊢

theorem splitOnce_nil_of_ne {sep : List Char} (hsep : sep ≠ []) :
    splitOnce sep [] = none := by
  cases sep with
  | nil => exact absurd rfl hsep
  | cons c cs => simp [splitOnce, stripPre]

theorem splitOnce_eq_some {sep : List Char} (hsep : sep ≠ []) :
    ∀ {l a b : List Char}, splitOnce sep l = some (a, b) →
      l = a ++ sep ++ b ∧ splitOnce sep a = none := by
  intro l
  induction l with
  | nil => intro a b h; rw [splitOnce_nil_of_ne hsep] at h; cases h
  | cons c l ih =>
    intro a b h
    simp only [splitOnce] at h
    cases hsp : stripPre sep (c :: l) with
    | some rest =>
      rw [hsp] at h
      simp only [Option.some.injEq, Prod.mk.injEq] at h
      obtain ⟨rfl, rfl⟩ := h
      exact ⟨by simpa using stripPre_eq_some hsp, splitOnce_nil_of_ne hsep⟩
    | none =>
      rw [hsp] at h
      cases hrec : splitOnce sep l with
      | none => rw [hrec] at h; cases h
      | some ab =>
        obtain ⟨a', b'⟩ := ab
        rw [hrec] at h
        simp only [Option.some.injEq, Prod.mk.injEq] at h
        obtain ⟨rfl, rfl⟩ := h
        obtain ⟨hl, hnone⟩ := ih hrec
        refine ⟨by simp [hl], ?_⟩
        simp only [splitOnce]
        cases hsp' : stripPre sep (c :: a') with
        | some r =>
          exfalso
          have : (c :: a') = sep ++ r := stripPre_eq_some hsp'
          have : stripPre sep (c :: l) = some (r ++ sep ++ b') := by
            have hcl : (c :: l) = sep ++ (r ++ sep ++ b') := by
              rw [show c :: l = (c :: a') ++ sep ++ b' from by simp [hl], this]
              simp
            rw [hcl]
            exact stripPre_append _ _
          rw [this] at hsp
          cases hsp
        | none => rw [hnone]

/-- The separator of `split(" | ", 1)`. -/
def spC : List Char := [' ', '|', ' ']

theorem splitOnce_first (n : List Char) :
    ∀ l : List Char, splitOnce spC (l ++ [' ', '|']) = none →
      splitOnce spC (l ++ spC ++ n) = some (l, n) := by
  intro l
  induction l with
  | nil =>
    intro _
    show splitOnce spC ([' ', '|', ' '] ++ n) = some ([], n)
    simp [splitOnce, stripPre, spC]
  | cons c l ih =>
    intro h
    simp only [List.cons_append, splitOnce, List.append_eq] at h
    cases hsp : stripPre spC (c :: (l ++ [' ', '|'])) with
    | some r => rw [hsp] at h; cases h
    | none =>
      rw [hsp] at h
      cases hrec : splitOnce spC (l ++ [' ', '|']) with
      | some ab => rw [hrec] at h; obtain ⟨a', b'⟩ := ab; cases h
      | none =>
        have hx : stripPre spC (c :: (l ++ spC ++ n)) = none := by
          have heq : c :: (l ++ spC ++ n) = (c :: (l ++ [' ', '|'])) ++ (' ' :: n) := by
            simp [spC]
          rw [heq]
          exact stripPre_append_none hsp (by simp [spC]) _
        simp only [List.cons_append, splitOnce, List.append_eq, hx, ih hrec]

theorem splitOnce_none_of_hasSub_false {needle hay : String}
    (h : strHasSub needle hay = false) : splitOnce needle.data hay.data = none := by
  unfold strHasSub at h
  cases hs : splitOnce needle.data hay.data with
  | none => rfl
  | some ab => rw [hs] at h; simp at h

/-- C4: country/name decoding splits the rank cell's combined title
attribute on the literal `" | "` at its first occurrence only: a successful
split reassembles the title with a delimiter-free country part (so any
further `" | "` embedded in the name part is preserved); a well-formed
title `"<Country> | <Name>"` whose country part is delimiter-free splits
into exactly `(Country, Name)`; and a title in which `" | "` does not occur
(fewer than two parts) is a fatal `ValueError`.  More than two parts cannot
arise, since the split is capped at one occurrence. -/
theorem C4_country_name_split (title c n : String) :
    (pySplit1 title " | " = (c, some n) →
      title = c ++ " | " ++ n ∧ strHasSub " | " c = false ∧
        splitCountryName title = .ok (c, n)) ∧
    (strHasSub " | " (c ++ " |") = false →
      splitCountryName (c ++ " | " ++ n) = .ok (c, n)) ∧
    (strHasSub " | " title = false →
      splitCountryName title =
        .error (.valueError "not enough values to unpack (expected 2, got 1)")) ∧
    splitCountryName "USA | Team | Alpha" = .ok ("USA", "Team | Alpha") := by
  refine ⟨?_, ?_, ?_, by rfl⟩
  · intro h
    unfold pySplit1 at h
    cases hs : splitOnce (" | " : String).data title.data with
    | none => rw [hs] at h; simp at h
    | some ab =>
      obtain ⟨a, b⟩ := ab
      rw [hs] at h
      simp only [Prod.mk.injEq, Option.some.injEq] at h
      obtain ⟨rfl, rfl⟩ := h
      obtain ⟨hd, hnone⟩ := splitOnce_eq_some (by decide) hs
      refine ⟨?_, ?_, ?_⟩
      · exact String.ext (by simpa [String.data_append] using hd)
      · unfold strHasSub
        simp [hnone]
      · unfold splitCountryName pySplit1
        rw [hs]
  · intro h
    have hnone : splitOnce spC (c.data ++ [' ', '|']) = none := by
      have := splitOnce_none_of_hasSub_false h
      simpa [String.data_append, spC] using this
    have hsp := splitOnce_first n.data c.data hnone
    unfold splitCountryName pySplit1
    have hdata : (c ++ " | " ++ n).data = c.data ++ spC ++ n.data := by
      simp [String.data_append, spC]
    rw [show (" | " : String).data = spC from rfl, hdata, hsp]
  · intro h
    have hnone := splitOnce_none_of_hasSub_false h
    unfold splitCountryName pySplit1
    rw [hnone]

/-- C1: discipline-cell decoding yields `none` exactly when the cell text,
stripped of trailing dots, is `"-"`; on every other well-formed cell it
yields a placement whose place is the integer parsed from the stripped cell
text and whose score is the real number parsed from the `title` attribute
of the (first) descendant element carrying one. -/
theorem C1_discipline_cell_decoding (col : Node) :
    (extract_discipline_data col = .ok none ↔ pyRstripDot (nodeText col) = "-") ∧
    (∀ (tooltip : Node) (title : String) (place : Int) (score : Dec),
      pyRstripDot (nodeText col) ≠ "-" →
      parsePyInt (pyRstripDot (nodeText col)) = .ok place →
      findTitled col = some tooltip →
      attrOf tooltip "title" = some title →
      parsePyFloat title = .ok score →
      extract_discipline_data col = .ok (some ⟨place, score⟩)) := by
  constructor
  · constructor
    · intro h
      by_cases hd : pyRstripDot (nodeText col) = "-"
      · exact hd
      · exfalso
        simp only [extract_discipline_data] at h
        rw [if_neg hd] at h
        cases hp : parsePyInt (pyRstripDot (nodeText col)) with
        | error e => simp only [hp] at h; cases h
        | ok place =>
          simp only [hp] at h
          cases hf : findTitled col with
          | none => simp only [hf] at h; cases h
          | some tooltip =>
            simp only [hf] at h
            cases ha : attrOf tooltip "title" with
            | none => simp only [ha] at h; cases h
            | some title =>
              simp only [ha] at h
              cases hs : parsePyFloat title with
              | error e => simp only [hs] at h; cases h
              | ok score => simp only [hs] at h; simp at h
    · intro hd
      simp only [extract_discipline_data]
      rw [if_pos hd]
  · intro tooltip title place score hd hp hf ha hs
    simp only [extract_discipline_data]
    rw [if_neg hd]
    simp only [hp, hf, ha, hs]

/-- C7: a discipline cell whose stripped text is not `"-"` but which has no
descendant element with a `title` attribute makes decoding fail with a
fatal error (never a silently-null placement). -/
theorem C7_missing_title_fatal (col : Node)
    (h1 : pyRstripDot (nodeText col) ≠ "-")
    (h2 : findTitled col = none) :
    ∃ e, extract_discipline_data col = .error e := by
  simp only [extract_discipline_data]
  rw [if_neg h1]
  cases hp : parsePyInt (pyRstripDot (nodeText col)) with
  | error e => exact ⟨e, rfl⟩
  | ok place => rw [h2]; exact ⟨.assertionError, rfl⟩

theorem C7_missing_title_fatal_witness :
    ∃ e, extract_discipline_data (Node.tag "td" [] (nl [Node.text "3."])) = .error e :=
  C7_missing_title_fatal _ (by decide) (by rfl)

/-- C5: car-kind decoding accepts exactly the case-sensitive strings
"electric", "combustion" and "other", mapping them to the three enum
values, and raises a reported `ValueError` for every other string
(e.g. "hybrid"). -/
theorem C5_car_kind_decoding (s : String) :
    (decodeCarKind s = .ok .ELECTRIC ↔ s = "electric") ∧
    (decodeCarKind s = .ok .COMBUSTION ↔ s = "combustion") ∧
    (decodeCarKind s = .ok .OTHER ↔ s = "other") ∧
    (s ≠ "electric" → s ≠ "combustion" → s ≠ "other" →
      decodeCarKind s = .error (.valueError ("Unknown car kind: " ++ s))) ∧
    decodeCarKind "hybrid" = .error (.valueError "Unknown car kind: hybrid") := by
  refine ⟨?_, ?_, ?_, ?_, by rfl⟩ <;>
    · unfold decodeCarKind
      split_ifs with h1 h2 h3 <;> simp_all

/-- C6: event-kind classification lower-cases the text after the heading
and tests, in order, for the substrings "mixed event" (MIXED), then
"pure electric" (ELECTRIC), then "pure combustion" (COMBUSTION) — so text
containing "Pure Electric" in any letter case classifies as ELECTRIC —
and assigns nothing when none matches: the later read of the variable then
sees the previous iteration's value, or fails with `NameError` when there
is none. -/
theorem C6_event_kind_classification (info : String) :
    (strHasSub "mixed event" (pyLower info) = true →
      classifyEventKind info = some .MIXED) ∧
    (strHasSub "mixed event" (pyLower info) = false →
      strHasSub "pure electric" (pyLower info) = true →
      classifyEventKind info = some .ELECTRIC) ∧
    (strHasSub "mixed event" (pyLower info) = false →
      strHasSub "pure electric" (pyLower info) = false →
      strHasSub "pure combustion" (pyLower info) = true →
      classifyEventKind info = some .COMBUSTION) ∧
    (strHasSub "mixed event" (pyLower info) = false →
      strHasSub "pure electric" (pyLower info) = false →
      strHasSub "pure combustion" (pyLower info) = false →
      classifyEventKind info = none) ∧
    classifyEventKind "It is a Pure Electric competition" = some .ELECTRIC ∧
    (∀ k, resolveEventKind none (some k) = .ok k) ∧
    resolveEventKind none none = .error .nameError := by
  refine ⟨?_, ?_, ?_, ?_, by rfl, fun k => rfl, rfl⟩
  · intro h1
    simp [classifyEventKind, h1]
  · intro h1 h2
    simp [classifyEventKind, h1, h2]
  · intro h1 h2 h3
    simp [classifyEventKind, h1, h2, h3]
  · intro h1 h2 h3
    simp [classifyEventKind, h1, h2, h3]

theorem getStep_start_eq (s : Scraper) (now : ℚ) :
    (s.getStep now).start =
      if now - s.last_request < s.min_pause then
        now + (s.min_pause - (now - s.last_request))
      else now := by
  simp only [Scraper.getStep]
  split_ifs <;> ring

theorem getStep_sleep_eq (s : Scraper) (now : ℚ) :
    (s.getStep now).sleep =
      if now - s.last_request < s.min_pause then
        s.min_pause - (now - s.last_request)
      else 0 := rfl

/-- C8 (amended): `Scraper.get` enforces the minimum wall-clock interval
(default 1 second) between the *starts* of consecutive outbound requests —
`last_request` is recorded just before the request is issued, so the
interval is measured start-to-start, not from the end of the previous
request — sleeping for the remaining deficit when called too soon, and
updating the last-request timestamp to the new request's start. -/
theorem C8_pacing_start_to_start (s : Scraper) (now now2 : ℚ) :
    Scraper.init.min_pause = 1 ∧
    (s.getStep now).next.last_request = (s.getStep now).start ∧
    s.min_pause ≤ ((s.getStep now).next.getStep now2).start - (s.getStep now).start ∧
    (now2 - (s.getStep now).start < s.min_pause →
      ((s.getStep now).next.getStep now2).sleep =
        s.min_pause - (now2 - (s.getStep now).start)) ∧
    (s.min_pause ≤ now2 - (s.getStep now).start →
      ((s.getStep now).next.getStep now2).sleep = 0 ∧
      ((s.getStep now).next.getStep now2).start = now2) := by
  have hp2 : (s.getStep now).next.min_pause = s.min_pause := rfl
  have hl2 : (s.getStep now).next.last_request = (s.getStep now).start := rfl
  refine ⟨rfl, rfl, ?_, ?_, ?_⟩
  · rw [getStep_start_eq ((s.getStep now).next) now2, hp2, hl2]
    split_ifs with h
    · linarith
    · linarith
  · intro h
    rw [getStep_sleep_eq ((s.getStep now).next) now2, hp2, hl2, if_pos h]
  · intro h
    constructor
    · rw [getStep_sleep_eq ((s.getStep now).next) now2, hp2, hl2, if_neg (by linarith)]
    · rw [getStep_start_eq ((s.getStep now).next) now2, hp2, hl2, if_neg (by linarith)]

/-- C8 counterexample: with the default scraper (`min_pause = 1`,
`last_request = 0`), a first request issued at t=5 that takes 2 seconds
ends at t=7; calling `get` again at t=7 issues the next request at t=7,
with no sleep — so the interval measured from the *end* of the previous
request to the start of the next is 0, below the 1-second minimum the
claim asserts for that measurement. -/
theorem C8_end_to_start_counterexample :
    ((Scraper.init.getStep 5).next.getStep 7).start -
        ((Scraper.init.getStep 5).start + 2) < Scraper.init.min_pause ∧
    ((Scraper.init.getStep 5).next.getStep 7).sleep = 0 := by
  have h1 : Scraper.init.getStep 5 =
      { sleep := 0, start := 5, next := { min_pause := 1, last_request := 5 } } := by
    simp only [Scraper.getStep, Scraper.init]
    norm_num
  rw [h1]
  have h2 : ({ min_pause := 1, last_request := 5 } : Scraper).getStep 7 =
      { sleep := 0, start := 7, next := { min_pause := 1, last_request := 7 } } := by
    simp only [Scraper.getStep]
    norm_num
  rw [h2]
  norm_num [Scraper.init]

/-! ## Orchestrator lemmas -/

/-- The run state a step left behind, whether it completed or crashed. -/
def stateOf : StepResult → RunState
  | .ok st => st
  | .fail _ st => st

/-- Every binding of `l` maps the key to an event whose `id` field is that
key. -/
def InvIds (l : List (Int × EventData)) : Prop :=
  ∀ k v, lookupEv l k = some v → v.id = k

/-- Every binding of `l` is still present, unchanged, in `l'`. -/
def SubmapEv (l l' : List (Int × EventData)) : Prop :=
  ∀ k v, lookupEv l k = some v → lookupEv l' k = some v

theorem SubmapEv.rfl {l : List (Int × EventData)} : SubmapEv l l := fun _ _ h => h

theorem SubmapEv.trans {a b c : List (Int × EventData)}
    (h1 : SubmapEv a b) (h2 : SubmapEv b c) : SubmapEv a c :=
  fun k v h => h2 k v (h1 k v h)

theorem lookupEv_append (l l' : List (Int × EventData)) (i : Int) :
    lookupEv (l ++ l') i =
      match lookupEv l i with
      | some v => some v
      | none => lookupEv l' i := by
  induction l with
  | nil => simp [lookupEv]
  | cons p rest ih =>
    obtain ⟨k, v⟩ := p
    by_cases hik : i = k
    · simp [lookupEv, hik]
    · simp [lookupEv, hik, ih]

theorem SubmapEv.append (l l' : List (Int × EventData)) : SubmapEv l (l ++ l') := by
  intro k v h
  rw [lookupEv_append, h]

theorem getFile_filter_ne (fs : List (String × FileContent)) (p : String) :
    getFile (fs.filter (fun e => e.1 != p)) p = none := by
  induction fs with
  | nil => rfl
  | cons e rest ih =>
    obtain ⟨q, c⟩ := e
    rw [List.filter_cons]
    by_cases hqp : q = p
    · simp [hqp, ih]
    · simp only [bne_iff_ne, ne_eq, hqp, not_false_eq_true, if_true, getFile]
      rw [if_neg (fun h => hqp h.symm), ih]

theorem getFile_append_right (l l' : List (String × FileContent)) (p : String)
    (h : getFile l p = none) : getFile (l ++ l') p = getFile l' p := by
  induction l with
  | nil => rfl
  | cons e rest ih =>
    obtain ⟨q, c⟩ := e
    simp only [getFile] at h ⊢
    by_cases hpq : p = q
    · rw [if_pos hpq] at h; cases h
    · rw [if_neg hpq] at h ⊢
      exact ih h

theorem getFile_setFile (fs : List (String × FileContent)) (p : String) (c : FileContent) :
    getFile (setFile fs p c) p = some c := by
  unfold setFile
  rw [getFile_append_right _ _ _ (getFile_filter_ne fs p)]
  simp [getFile]

/-- A successfully extracted event carries the id it was extracted for. -/
theorem extractEvent_id {soup : Node} {eid : Int} {pk : Option EventKind}
    {ev : EventData} (h : extractEvent soup eid pk = .ok ev) : ev.id = eid := by
  unfold extractEvent at h
  cases h1 : extractEventHeader soup with
  | error e => simp only [h1, bind, Except.bind] at h; cases h
  | ok p =>
    obtain ⟨nm, info⟩ := p
    simp only [h1, bind, Except.bind] at h
    cases h2 : resolveEventKind (classifyEventKind info) pk with
    | error e => simp only [h2] at h; cases h
    | ok kind =>
      simp only [h2] at h
      cases h3 : findResultsTable soup with
      | error e => simp only [h3] at h; cases h
      | ok table =>
        simp only [h3] at h
        cases h4 : extractRows (allNamed "tr" table) with
        | error e => simp only [h4] at h; cases h
        | ok results =>
          simp only [h4, pure, Except.pure, Except.ok.injEq] at h
          rw [← h]

/-- What one loop iteration does to the accumulated dict: leaves it alone,
or appends one binding for a fresh id whose event carries that id. -/
theorem processEventId_events (world : World) (wrl_kind url : String)
    (st : RunState) (eid : Int) :
    (stateOf (processEventId world wrl_kind url st eid)).events = st.events ∨
    ∃ ev : EventData, ev.id = eid ∧ lookupEv st.events eid = none ∧
      (stateOf (processEventId world wrl_kind url st eid)).events =
        st.events ++ [(eid, ev)] := by
  unfold processEventId
  by_cases hsk : (lookupEv st.events eid).isSome
  · rw [if_pos hsk]; left; rfl
  · rw [if_neg hsk]
    cases hfp : fetchPage world (url ++ "/" ++ toString eid) with
    | none => left; rfl
    | some soup =>
      dsimp only
      cases hex : extractEvent soup eid st.lastKind with
      | error e => left; rfl
      | ok ev =>
        right
        exact ⟨ev, extractEvent_id hex, Option.not_isSome_iff_eq_none.mp hsk, rfl⟩

theorem processEventId_submap (world : World) (wrl_kind url : String)
    (st : RunState) (eid : Int) :
    SubmapEv st.events (stateOf (processEventId world wrl_kind url st eid)).events := by
  rcases processEventId_events world wrl_kind url st eid with h | ⟨ev, _, _, h⟩
  · rw [h]; exact SubmapEv.rfl
  · rw [h]; exact SubmapEv.append _ _

theorem processEventId_inv (world : World) (wrl_kind url : String)
    (st : RunState) (eid : Int) (hinv : InvIds st.events) :
    InvIds (stateOf (processEventId world wrl_kind url st eid)).events := by
  rcases processEventId_events world wrl_kind url st eid with h | ⟨ev, hid, _, h⟩
  · rw [h]; exact hinv
  · rw [h]
    intro k v hkv
    rw [lookupEv_append] at hkv
    cases hl : lookupEv st.events k with
    | some w => rw [hl] at hkv; cases hkv; exact hinv k _ hl
    | none =>
      rw [hl] at hkv
      simp only [lookupEv] at hkv
      by_cases hke : k = eid
      · rw [if_pos hke] at hkv
        cases hkv
        rw [hid, hke]
      · rw [if_neg hke] at hkv
        cases hkv

theorem processEventIds_submap (world : World) (wrl_kind url : String) :
    ∀ (ids : List Int) (st : RunState),
      SubmapEv st.events (stateOf (processEventIds world wrl_kind url st ids)).events := by
  intro ids
  induction ids with
  | nil => intro st; exact SubmapEv.rfl
  | cons eid rest ih =>
    intro st
    have h1 := processEventId_submap world wrl_kind url st eid
    simp only [processEventIds]
    cases hp : processEventId world wrl_kind url st eid with
    | fail e st' => rw [hp] at h1; exact h1
    | ok st' => rw [hp] at h1; exact h1.trans (ih st')

theorem processEventIds_inv (world : World) (wrl_kind url : String) :
    ∀ (ids : List Int) (st : RunState), InvIds st.events →
      InvIds (stateOf (processEventIds world wrl_kind url st ids)).events := by
  intro ids
  induction ids with
  | nil => intro st h; exact h
  | cons eid rest ih =>
    intro st hinv
    have h1 := processEventId_inv world wrl_kind url st eid hinv
    simp only [processEventIds]
    cases hp : processEventId world wrl_kind url st eid with
    | fail e st' => rw [hp] at h1; exact h1
    | ok st' => rw [hp] at h1; exact ih st' h1

theorem runSeries_submap (world : World) (wrl_kind url : String) (st : RunState) :
    SubmapEv st.events (stateOf (runSeries world wrl_kind url st)).events := by
  unfold runSeries
  cases hfp : fetchPage world url with
  | none => exact SubmapEv.rfl
  | some soup =>
    dsimp only
    cases hids : extractEventIds soup with
    | error e => exact SubmapEv.rfl
    | ok ids =>
      dsimp only
      have h1 := processEventIds_submap world wrl_kind url ids
        { st with trace := st.trace ++ [Effect.fetch url] }
      cases hrun : processEventIds world wrl_kind url
          { st with trace := st.trace ++ [Effect.fetch url] } ids with
      | fail e st' => rw [hrun] at h1; exact h1
      | ok st' => rw [hrun] at h1; exact h1

theorem runSeries_inv (world : World) (wrl_kind url : String) (st : RunState)
    (hinv : InvIds st.events) :
    InvIds (stateOf (runSeries world wrl_kind url st)).events := by
  unfold runSeries
  cases hfp : fetchPage world url with
  | none => exact hinv
  | some soup =>
    dsimp only
    cases hids : extractEventIds soup with
    | error e => exact hinv
    | ok ids =>
      dsimp only
      have h1 := processEventIds_inv world wrl_kind url ids
        { st with trace := st.trace ++ [Effect.fetch url] } hinv
      cases hrun : processEventIds world wrl_kind url
          { st with trace := st.trace ++ [Effect.fetch url] } ids with
      | fail e st' => rw [hrun] at h1; exact h1
      | ok st' => rw [hrun] at h1; exact h1

theorem runSeriesList_submap (world : World) :
    ∀ (ds : List (String × String)) (st : RunState),
      SubmapEv st.events (stateOf (runSeriesList world st ds)).events := by
  intro ds
  induction ds with
  | nil => intro st; exact SubmapEv.rfl
  | cons p rest ih =>
    obtain ⟨wrl_kind, url⟩ := p
    intro st
    have h1 := runSeries_submap world wrl_kind url st
    simp only [runSeriesList]
    cases hr : runSeries world wrl_kind url st with
    | fail e st' => rw [hr] at h1; exact h1
    | ok st' => rw [hr] at h1; exact h1.trans (ih st')

theorem runSeriesList_inv (world : World) :
    ∀ (ds : List (String × String)) (st : RunState), InvIds st.events →
      InvIds (stateOf (runSeriesList world st ds)).events := by
  intro ds
  induction ds with
  | nil => intro st h; exact h
  | cons p rest ih =>
    obtain ⟨wrl_kind, url⟩ := p
    intro st hinv
    have h1 := runSeries_inv world wrl_kind url st hinv
    simp only [runSeriesList]
    cases hr : runSeries world wrl_kind url st with
    | fail e st' => rw [hr] at h1; exact h1
    | ok st' => rw [hr] at h1; exact ih st' h1

/-! ## Sample pages and states used by the witnesses -/

def exListPage : Node :=
  .tag "html" [] (nl [
    .tag "select" [("id", "WorldEvents")] (nl [
      .tag "option" [("value", "101")] (nl [.text "Test Event"])])])

def exEventPage : Node :=
  .tag "html" [] (nl [
    .tag "h4" [] (nl [.text "Test Event"]),
    .text "a pure electric event",
    .tag "h3" [("id", "results")] (nl [.text "Results"]),
    .tag "table" [("class", "wrl_table")] (nl [
      .tag "tr" [] (nl [.tag "th" [] (nl [.text "Rank"])])])])

/-- Like `exEventPage` but with a malformed data row (one `<td>` instead of
twelve), so row extraction fails its column-count `assert`. -/
def exBadEventPage : Node :=
  .tag "html" [] (nl [
    .tag "h4" [] (nl [.text "Test Event"]),
    .text "a pure electric event",
    .tag "h3" [("id", "results")] (nl [.text "Results"]),
    .tag "table" [("class", "wrl_table")] (nl [
      .tag "tr" [] (nl [.tag "th" [] (nl [.text "Rank"])]),
      .tag "tr" [] (nl [.tag "td" [] (nl [.text "1."])])])])

def exWorld : World :=
  { pages := [("https://fs-world.org/E", exListPage),
              ("https://fs-world.org/E/101", exEventPage)] }

def exBadWorld : World :=
  { pages := [("https://fs-world.org/E", exListPage),
              ("https://fs-world.org/E/101", exBadEventPage)] }

/-- An event accumulated by an earlier series. -/
def exEvent7 : EventData := { id := 7, kind := .MIXED, name := "Old Event", results := [] }

/-- A mid-run state: event 7 already accumulated, a stale summary file on
disk. -/
def exState0 : RunState :=
  { events := [(7, exEvent7)],
    fs := [(summaryPath "FSE", .summaryCsv [(7, "MIXED", "Old Event", 0)])],
    trace := [], lastKind := some .MIXED }

/-- C2: when a series completes, its summary file holds exactly one row per
entry of the *full* accumulated events dict at that point — including
events inserted while processing earlier series — with columns
(id, kind name, name, team count), and the write replaces any previous
content at that path rather than appending to it. -/
theorem C2_summary_covers_accumulated (world : World) (wrl_kind url : String)
    (st st' : RunState) (h : runSeries world wrl_kind url st = .ok st') :
    getFile st'.fs (summaryPath wrl_kind) =
      some (.summaryCsv (summaryRows st'.events)) ∧
    (∀ k v, lookupEv st.events k = some v → lookupEv st'.events k = some v) := by
  unfold runSeries at h
  cases hfp : fetchPage world url with
  | none => simp only [hfp] at h; cases h
  | some soup =>
    simp only [hfp] at h
    cases hids : extractEventIds soup with
    | error e => simp only [hids] at h; cases h
    | ok ids =>
      simp only [hids] at h
      cases hrun : processEventIds world wrl_kind url
          { st with trace := st.trace ++ [Effect.fetch url] } ids with
      | fail e stf => simp only [hrun] at h; cases h
      | ok stp =>
        simp only [hrun] at h
        injection h with h'
        subst h'
        constructor
        · exact getFile_setFile stp.fs (summaryPath wrl_kind)
            (.summaryCsv (summaryRows stp.events))
        · have hsub := processEventIds_submap world wrl_kind url ids
            { st with trace := st.trace ++ [Effect.fetch url] }
          rw [hrun] at hsub
          exact hsub

/-- C2 witness: a series run starting from a state already holding event 7
(from an earlier series) and a stale summary file; the new summary lists
both event 7 and the freshly scraped event 101, replacing the old file. -/
def exState1 : RunState :=
  { events := [(7, exEvent7),
               (101, { id := 101, kind := .ELECTRIC, name := "Test Event", results := [] })],
    fs := [("data/events/101.csv", .eventCsv []),
           ("data/FSE.csv",
            .summaryCsv [(7, "MIXED", "Old Event", 0), (101, "ELECTRIC", "Test Event", 0)])],
    trace := [.fetch "https://fs-world.org/E", .fetch "https://fs-world.org/E/101",
              .note "FSE/101: Test Event"],
    lastKind := some .ELECTRIC }

theorem C2_summary_covers_accumulated_witness :
    getFile exState1.fs (summaryPath "FSE") =
      some (.summaryCsv (summaryRows exState1.events)) ∧
    (∀ k v, lookupEv exState0.events k = some v → lookupEv exState1.events k = some v) :=
  C2_summary_covers_accumulated exWorld "FSE" "https://fs-world.org/E" exState0 exState1
    (by rfl)

/-- C3: an event id already present in the accumulated dict is a pure skip:
the step returns the state unchanged except for one appended diagnostic
note — no fetch, no extraction, no new or replaced dict entry, no file
write. -/
theorem C3_duplicate_id_skip (world : World) (wrl_kind url : String)
    (st : RunState) (event_id : Int)
    (h : (lookupEv st.events event_id).isSome = true) :
    processEventId world wrl_kind url st event_id =
      .ok { st with trace := st.trace ++
        [.note ("Skipping " ++ wrl_kind ++ "/" ++ toString event_id ++
          " (already scraped, probably a mixed event)")] } := by
  unfold processEventId
  rw [if_pos h]

theorem C3_duplicate_id_skip_witness :
    processEventId exWorld "FSE" "https://fs-world.org/E" exState1 101 =
      .ok { exState1 with trace := exState1.trace ++
        [.note "Skipping FSE/101 (already scraped, probably a mixed event)"] } :=
  C3_duplicate_id_skip exWorld "FSE" "https://fs-world.org/E" exState1 101 (by rfl)

/-- C9: when processing an event aborts with an error — a transport failure
or any structural/value mismatch while extracting, in particular a failing
table row — the accumulated dict gains no entry for that id and the
filesystem is untouched: the insert and the per-event write happen only
after the whole table extracted successfully. -/
theorem C9_failed_extraction_leaves_state (world : World) (wrl_kind url : String)
    (st st' : RunState) (event_id : Int) (e : ScrapeErr)
    (h : processEventId world wrl_kind url st event_id = .fail e st') :
    st'.events = st.events ∧ st'.fs = st.fs ∧
    getFile st'.fs (eventPath event_id) = getFile st.fs (eventPath event_id) ∧
    lookupEv st'.events event_id = lookupEv st.events event_id := by
  unfold processEventId at h
  by_cases hsk : (lookupEv st.events event_id).isSome
  · rw [if_pos hsk] at h; cases h
  · rw [if_neg hsk] at h
    cases hfp : fetchPage world (url ++ "/" ++ toString event_id) with
    | none =>
      simp only [hfp] at h
      cases h
      exact ⟨rfl, rfl, rfl, rfl⟩
    | some soup =>
      simp only [hfp] at h
      cases hex : extractEvent soup event_id st.lastKind with
      | error e2 =>
        simp only [hex] at h
        cases h
        exact ⟨rfl, rfl, rfl, rfl⟩
      | ok ev => simp only [hex] at h; cases h

def exFailState : RunState :=
  { events := [], fs := [], trace := [.fetch "https://fs-world.org/E/101"], lastKind := none }

theorem C9_failed_extraction_leaves_state_witness :
    exFailState.events = initState.events ∧ exFailState.fs = initState.fs ∧
    getFile exFailState.fs (eventPath 101) = getFile initState.fs (eventPath 101) ∧
    lookupEv exFailState.events 101 = lookupEv initState.events 101 :=
  C9_failed_extraction_leaves_state exBadWorld "FSE" "https://fs-world.org/E"
    initState exFailState 101 .assertionError (by rfl)

/-- C10: the accumulated dict maps every key to an event whose `id` field
equals that key, and it only grows — every existing binding survives,
unchanged, both across one loop step and across any remaining run — since
ids already present are skipped and inserts always bind `event_id` to an
event carrying that id. -/
theorem C10_events_mapping_invariant (world : World) (wrl_kind url : String)
    (eid : Int) (ds : List (String × String)) (st : RunState)
    (hinv : ∀ k v, lookupEv st.events k = some v → v.id = k) :
    ((∀ k v,
        lookupEv (stateOf (processEventId world wrl_kind url st eid)).events k = some v →
          v.id = k) ∧
     (∀ k v, lookupEv st.events k = some v →
        lookupEv (stateOf (processEventId world wrl_kind url st eid)).events k = some v)) ∧
    ((∀ k v,
        lookupEv (stateOf (runSeriesList world st ds)).events k = some v → v.id = k) ∧
     (∀ k v, lookupEv st.events k = some v →
        lookupEv (stateOf (runSeriesList world st ds)).events k = some v)) :=
  ⟨⟨processEventId_inv world wrl_kind url st eid hinv,
    processEventId_submap world wrl_kind url st eid⟩,
   ⟨runSeriesList_inv world ds st hinv,
    runSeriesList_submap world ds st⟩⟩

theorem C10_events_mapping_invariant_witness :
    ((∀ k v,
        lookupEv (stateOf (processEventId exWorld "FSE" "https://fs-world.org/E"
          initState 101)).events k = some v → v.id = k) ∧
     (∀ k v, lookupEv initState.events k = some v →
        lookupEv (stateOf (processEventId exWorld "FSE" "https://fs-world.org/E"
          initState 101)).events k = some v)) ∧
    ((∀ k v,
        lookupEv (stateOf (runSeriesList exWorld initState
          [("FSE", "https://fs-world.org/E")])).events k = some v → v.id = k) ∧
     (∀ k v, lookupEv initState.events k = some v →
        lookupEv (stateOf (runSeriesList exWorld initState
          [("FSE", "https://fs-world.org/E")])).events k = some v)) :=
  C10_events_mapping_invariant exWorld "FSE" "https://fs-world.org/E" 101
    [("FSE", "https://fs-world.org/E")] initState
    (by intro k v hkv; simp [initState, lookupEv] at hkv)

end FSWorld
